import Mathlib

/-!
Verification of the training orchestrator of `unet-pytorch` (`src/train.py`):
the epoch/batch loop, per-batch schedule stepping under dynamic loss scaling,
the checkpoint/resume logic, the dual-criterion best-model selection, the
rank-0 writer discipline, and the distributed teardown.

The embedding is shallow: model parameters, optimizer state, scheduler state
and scaler state are abstract type parameters; validation losses and metrics
are rationals; the per-batch optimizer update and the per-batch overflow
flag of the dynamic loss scaler are supplied as functions of the (epoch,
batch) position.
-/

namespace UnetTrain

/-- Dynamic loss-scaling state. Modelled from the spec: `torch.cuda.amp.GradScaler`
is an external library component (not part of this repository's sources); per the
spec, under reduced precision the optimizer step is skipped when overflow is
detected and the scale factor is decreased on overflow and increased otherwise,
once per batch; when disabled it is inert. -/
structure GradScaler where
  scale : ℚ
  enabled : Bool
deriving DecidableEq

/-- `scaler.update()` (train.py line 94): adjust the scale once per batch,
decreasing it on detected overflow and increasing it otherwise; inert when
reduced precision is disabled. -/
def GradScaler.updateScale (sc : GradScaler) (overflow : Bool) : GradScaler :=
  if sc.enabled then
    if overflow then { sc with scale := sc.scale / 2 }
    else { sc with scale := sc.scale * 2 }
  else sc

/-- Environment of one training run: everything `train.py`'s loop consumes.
`n` is `len(trainloader)`; `upd e b` is the parameter update the optimizer
step at epoch `e`, batch `b` would apply; `ovf e b` says whether the scaled
backward pass of that batch produces overflowing gradients; `interrupt e` is
the value `utils.train_interupter.train_interupter()` returns when polled at
the top of epoch `e`; `evalRes e = (val_loss, miou)` is what `eval.evaluate`
returns after epoch `e`; `localRank` is this process's rank. -/
structure Env (P : Type) where
  n : ℕ
  upd : ℕ → ℕ → P → P
  ovf : ℕ → ℕ → Bool
  interrupt : ℕ → Bool
  evalRes : ℕ → ℚ × ℚ
  localRank : ℕ

/-- Per-batch training state: model parameters, the loss scaler, the number of
`scheduler.step()` calls made so far, the number of optimizer updates actually
applied, the log of global iteration indices passed to the logging sink, and
the list of `(epoch, batch_idx)` pairs processed so far, in order. -/
structure BatchState (P : Type) where
  params : P
  scaler : GradScaler
  schedSteps : ℕ
  optSteps : ℕ
  itersLog : List ℕ
  processed : List (ℕ × ℕ)
deriving DecidableEq

/-- One iteration of the inner batch loop (train.py lines 84-100):
`iters = len(trainloader) * epoch + batch_idx`; the scaled backward pass and
`scaler.step(optimizer)` skip the parameter update exactly when reduced
precision is enabled and overflow is detected; `scaler.update()` adjusts the
scale; the training loss is logged at step `iters`; and `scheduler.step()`
(line 100) runs unconditionally on every batch. -/
def batchStep (env : Env P) (epoch bidx : ℕ) (s : BatchState P) : BatchState P :=
  let iters := env.n * epoch + bidx
  let overflow := s.scaler.enabled && env.ovf epoch bidx
  { params := if overflow then s.params else env.upd epoch bidx s.params
    scaler := s.scaler.updateScale overflow
    schedSteps := s.schedSteps + 1
    optSteps := if overflow then s.optSteps else s.optSteps + 1
    itersLog := s.itersLog ++ [iters]
    processed := s.processed ++ [(epoch, bidx)] }

/-- The full inner loop of one epoch: batches `0, ..., n-1` in loader order. -/
def trainEpoch (env : Env P) (epoch : ℕ) (s : BatchState P) : BatchState P :=
  (List.range env.n).foldl (fun st b => batchStep env epoch b st) s

/-- The two best-value trackers (`prev_miou`, `prev_val_loss` in train.py). -/
structure PersistState where
  prevMiou : ℚ
  prevValLoss : ℚ
deriving DecidableEq

/-- A write of persisted state: the rolling checkpoint record (which stores
the epoch index and the epoch's metric and loss), the best-by-metric
artifact, or the best-by-loss artifact. -/
inductive SaveEvent where
  | checkpoint (epoch : ℕ) (miou valLoss : ℚ)
  | bestMiou (epoch : ℕ)
  | bestValLoss (epoch : ℕ)
deriving DecidableEq

/-- The checkpoint phase (train.py lines 121-142): only rank 0 writes anything;
rank 0 first writes the full checkpoint record unconditionally, then overwrites
the best-by-metric artifact iff `miou > prev_miou` (updating the tracker
immediately), then overwrites the best-by-loss artifact iff
`val_loss < prev_val_loss` (updating the tracker immediately). Returns the new
tracker state and the list of writes performed, in order. -/
def persistStep (localRank : ℕ) (epoch : ℕ) (miou valLoss : ℚ) (ps : PersistState) :
    PersistState × List SaveEvent :=
  if localRank = 0 then
    let best1 : PersistState × List SaveEvent :=
      if miou > ps.prevMiou then ({ ps with prevMiou := miou }, [SaveEvent.bestMiou epoch])
      else (ps, [])
    let best2 : PersistState × List SaveEvent :=
      if valLoss < best1.1.prevValLoss then
        ({ best1.1 with prevValLoss := valLoss }, [SaveEvent.bestValLoss epoch])
      else (best1.1, [])
    (best2.1, SaveEvent.checkpoint epoch miou valLoss :: (best1.2 ++ best2.2))
  else (ps, [])

/-- State threaded through the epoch loop: the batch-level state, the
best-value trackers, all persisted writes so far (in order), the epochs at
which the interrupt predicate has been polled (in order), and whether the loop
exited through the interrupt branch. -/
structure LoopState (P : Type) where
  batch : BatchState P
  persist : PersistState
  events : List SaveEvent
  polled : List ℕ
  interrupted : Bool
deriving DecidableEq

/-- The body of one non-interrupted epoch (train.py lines 81-142): train all
batches, evaluate, and run the checkpoint phase. -/
def epochBody (env : Env P) (epoch : ℕ) (s : LoopState P) : LoopState P :=
  let b := trainEpoch env epoch s.batch
  let vr := env.evalRes epoch
  let pr := persistStep env.localRank epoch vr.2 vr.1 s.persist
  { s with batch := b, persist := pr.1, events := s.events ++ pr.2 }

/-- The epoch loop (train.py lines 77-142) over an explicit list of epoch
indices: at the top of each epoch the interrupt predicate is polled once; if
it returns true the loop breaks before any of that epoch's training work,
otherwise the epoch body runs and the loop continues. -/
def runEpochs (env : Env P) : List ℕ → LoopState P → LoopState P
  | [], s => s
  | e :: rest, s =>
    let s' := { s with polled := s.polled ++ [e] }
    if env.interrupt e then { s' with interrupted := true }
    else runEpochs env rest (epochBody env e s')

/-- `range(start_epoch, cfg[model_name]['epoch'])` in train.py line 77. -/
def epochRange (start total : ℕ) : List ℕ := List.range' start (total - start)

/-- The on-disk checkpoint record (train.py lines 124-132). -/
structure Checkpoint (P O S C : Type) where
  model_state_dict : P
  optimizer_state_dict : O
  scheduler_state_dict : S
  scaler_state_dict : C
  epoch : ℕ
  miou : ℚ
  val_loss : ℚ

/-- The freshly built components (train.py lines 35, 44-46). -/
structure Fresh (P O S C : Type) where
  model : P
  optimizer : O
  scheduler : S
  scaler : C

/-- What the run starts from after the resume-or-fresh decision. -/
structure Setup (P O S C : Type) where
  model : P
  optimizer : O
  scheduler : S
  scaler : C
  start_epoch : ℕ
  prev_miou : ℚ
  prev_val_loss : ℚ

/-- The resume-or-fresh logic (train.py lines 49-70): with a resume record the
model parameters are always restored; under `fine_tuning_batchnorm` the
batch-normalization statistics are then frozen and the optimizer, scheduler and
scaler keep their freshly built state, otherwise all three are restored from
the record; `start_epoch = checkpoint['epoch'] + 1` and the best-value trackers
come from the record in both branches. Without a resume record the run starts
at epoch 0 with trackers `0.0` and `100`. -/
def resumeOrFresh (resume : Option (Checkpoint P O S C)) (fineTuningBatchnorm : Bool)
    (freezeBn : P → P) (fresh : Fresh P O S C) : Setup P O S C :=
  match resume with
  | some ck =>
    if fineTuningBatchnorm then
      { model := freezeBn ck.model_state_dict
        optimizer := fresh.optimizer
        scheduler := fresh.scheduler
        scaler := fresh.scaler
        start_epoch := ck.epoch + 1
        prev_miou := ck.miou
        prev_val_loss := ck.val_loss }
    else
      { model := ck.model_state_dict
        optimizer := ck.optimizer_state_dict
        scheduler := ck.scheduler_state_dict
        scaler := ck.scaler_state_dict
        start_epoch := ck.epoch + 1
        prev_miou := ck.miou
        prev_val_loss := ck.val_loss }
  | none =>
      { model := fresh.model
        optimizer := fresh.optimizer
        scheduler := fresh.scheduler
        scaler := fresh.scaler
        start_epoch := 0
        prev_miou := 0
        prev_val_loss := 100 }

/-- The loop state a run begins with, given starting parameters, whether
reduced precision is enabled, and the initial best-value trackers. `65536`
is the loss scaler's documented initial scale. -/
def initLoopState (params : P) (ampEnabled : Bool) (prevMiou prevValLoss : ℚ) :
    LoopState P :=
  { batch := { params := params, scaler := { scale := 65536, enabled := ampEnabled }
               schedSteps := 0, optSteps := 0, itersLog := [], processed := [] }
    persist := { prevMiou := prevMiou, prevValLoss := prevValLoss }
    events := [], polled := [], interrupted := false }

/-- train.py lines 18-27: the collective-communication context is initialized
exactly when `cfg['ddp']` is set. -/
def ddpInitialized (ddp : Bool) : Bool := ddp

/-- Modelled from the spec: `torch.distributed.destroy_process_group` is an
external library call (not part of this repository's sources); it releases the
communication context when a default process group exists and raises an error
when no process group was ever initialized. -/
def destroy_process_group (initialized : Bool) : Except String Unit :=
  if initialized then Except.ok ()
  else Except.error "Default process group has not been initialized"

/-- train.py line 144: after the epoch loop exits (completed or interrupted),
`torch.distributed.destroy_process_group()` is invoked unconditionally,
whether or not distributed mode was requested. -/
def scriptTeardown (ddp : Bool) : Except String Unit :=
  destroy_process_group (ddpInitialized ddp)

/-- The epoch indices of the checkpoint-record writes in a write log. -/
def checkpointEpochs (evs : List SaveEvent) : List ℕ :=
  evs.filterMap fun ev => match ev with
    | SaveEvent.checkpoint e _ _ => some e
    | _ => none

/-- The epochs at which the best-by-metric artifact was overwritten. -/
def bestMiouEpochs (evs : List SaveEvent) : List ℕ :=
  evs.filterMap fun ev => match ev with
    | SaveEvent.bestMiou e => some e
    | _ => none

/-- The epochs at which the best-by-loss artifact was overwritten. -/
def bestValLossEpochs (evs : List SaveEvent) : List ℕ :=
  evs.filterMap fun ev => match ev with
    | SaveEvent.bestValLoss e => some e
    | _ => none

/-! ### Basic lemmas about the batch loop -/

variable {P O S C : Type}

lemma foldBatches_itersLog (env : Env P) (e : ℕ) (bs : List ℕ) :
    ∀ s : BatchState P,
      (bs.foldl (fun st b => batchStep env e b st) s).itersLog
        = s.itersLog ++ bs.map (fun b => env.n * e + b) := by
  induction bs with
  | nil => intro s; simp
  | cons b bs ih =>
    intro s
    simp only [List.foldl_cons, List.map_cons]
    rw [ih]
    simp [batchStep]

lemma foldBatches_processed (env : Env P) (e : ℕ) (bs : List ℕ) :
    ∀ s : BatchState P,
      (bs.foldl (fun st b => batchStep env e b st) s).processed
        = s.processed ++ bs.map (fun b => (e, b)) := by
  induction bs with
  | nil => intro s; simp
  | cons b bs ih =>
    intro s
    simp only [List.foldl_cons, List.map_cons]
    rw [ih]
    simp [batchStep]

lemma foldBatches_schedSteps (env : Env P) (e : ℕ) (bs : List ℕ) :
    ∀ s : BatchState P,
      (bs.foldl (fun st b => batchStep env e b st) s).schedSteps
        = s.schedSteps + bs.length := by
  induction bs with
  | nil => intro s; simp
  | cons b bs ih =>
    intro s
    simp only [List.foldl_cons, List.length_cons]
    rw [ih]
    simp [batchStep]
    omega

lemma trainEpoch_itersLog (env : Env P) (e : ℕ) (s : BatchState P) :
    (trainEpoch env e s).itersLog
      = s.itersLog ++ (List.range env.n).map (fun b => env.n * e + b) :=
  foldBatches_itersLog env e (List.range env.n) s

lemma trainEpoch_processed (env : Env P) (e : ℕ) (s : BatchState P) :
    (trainEpoch env e s).processed
      = s.processed ++ (List.range env.n).map (fun b => (e, b)) :=
  foldBatches_processed env e (List.range env.n) s

lemma trainEpoch_schedSteps (env : Env P) (e : ℕ) (s : BatchState P) :
    (trainEpoch env e s).schedSteps = s.schedSteps + env.n := by
  have h := foldBatches_schedSteps env e (List.range env.n) s
  rw [List.length_range] at h
  exact h

/-! ### Basic lemmas about the checkpoint phase -/

lemma persistStep_rank_ne (r e : ℕ) (m v : ℚ) (ps : PersistState) (h : r ≠ 0) :
    persistStep r e m v ps = (ps, []) := by
  simp [persistStep, h]

lemma persistStep_events (e : ℕ) (m v : ℚ) (ps : PersistState) :
    (persistStep 0 e m v ps).2
      = SaveEvent.checkpoint e m v
          :: ((if m > ps.prevMiou then [SaveEvent.bestMiou e] else [])
            ++ (if v < ps.prevValLoss then [SaveEvent.bestValLoss e] else [])) := by
  simp only [persistStep, if_pos rfl]
  split_ifs <;> rfl

lemma persistStep_prevMiou (e : ℕ) (m v : ℚ) (ps : PersistState) :
    (persistStep 0 e m v ps).1.prevMiou
      = if m > ps.prevMiou then m else ps.prevMiou := by
  simp only [persistStep, if_pos rfl]
  split_ifs <;> rfl

lemma persistStep_prevValLoss (e : ℕ) (m v : ℚ) (ps : PersistState) :
    (persistStep 0 e m v ps).1.prevValLoss
      = if v < ps.prevValLoss then v else ps.prevValLoss := by
  simp only [persistStep, if_pos rfl]
  split_ifs <;> rfl

lemma persistStep_prevMiou_le (r e : ℕ) (m v : ℚ) (ps : PersistState) :
    ps.prevMiou ≤ (persistStep r e m v ps).1.prevMiou := by
  by_cases hr : r = 0
  · subst hr
    rw [persistStep_prevMiou]
    split_ifs with h
    · exact le_of_lt h
    · exact le_refl _
  · rw [persistStep_rank_ne r e m v ps hr]

lemma persistStep_prevValLoss_ge (r e : ℕ) (m v : ℚ) (ps : PersistState) :
    (persistStep r e m v ps).1.prevValLoss ≤ ps.prevValLoss := by
  by_cases hr : r = 0
  · subst hr
    rw [persistStep_prevValLoss]
    split_ifs with h
    · exact le_of_lt h
    · exact le_refl _
  · rw [persistStep_rank_ne r e m v ps hr]

lemma checkpointEpochs_append (a b : List SaveEvent) :
    checkpointEpochs (a ++ b) = checkpointEpochs a ++ checkpointEpochs b :=
  List.filterMap_append a b _

lemma bestMiouEpochs_append (a b : List SaveEvent) :
    bestMiouEpochs (a ++ b) = bestMiouEpochs a ++ bestMiouEpochs b :=
  List.filterMap_append a b _

lemma bestValLossEpochs_append (a b : List SaveEvent) :
    bestValLossEpochs (a ++ b) = bestValLossEpochs a ++ bestValLossEpochs b :=
  List.filterMap_append a b _

lemma persistStep_checkpointEpochs (e : ℕ) (m v : ℚ) (ps : PersistState) :
    checkpointEpochs (persistStep 0 e m v ps).2 = [e] := by
  rw [persistStep_events]
  split_ifs <;> rfl

/-! ### Basic lemmas about the epoch loop -/

lemma runEpochs_cons (env : Env P) (e : ℕ) (rest : List ℕ) (s : LoopState P) :
    runEpochs env (e :: rest) s
      = if env.interrupt e then
          { s with polled := s.polled ++ [e], interrupted := true }
        else runEpochs env rest (epochBody env e { s with polled := s.polled ++ [e] }) := by
  rfl

lemma epochBody_polled (env : Env P) (e : ℕ) (s : LoopState P) :
    (epochBody env e s).polled = s.polled := rfl

lemma epochBody_batch (env : Env P) (e : ℕ) (s : LoopState P) :
    (epochBody env e s).batch = trainEpoch env e s.batch := rfl

lemma epochBody_events (env : Env P) (e : ℕ) (s : LoopState P) :
    (epochBody env e s).events
      = s.events ++ (persistStep env.localRank e (env.evalRes e).2 (env.evalRes e).1 s.persist).2 :=
  rfl

lemma epochBody_persist (env : Env P) (e : ℕ) (s : LoopState P) :
    (epochBody env e s).persist
      = (persistStep env.localRank e (env.evalRes e).2 (env.evalRes e).1 s.persist).1 :=
  rfl

lemma runEpochs_append_of_no_interrupt (env : Env P) (l₁ l₂ : List ℕ)
    (h : ∀ e ∈ l₁, env.interrupt e = false) :
    ∀ s : LoopState P, runEpochs env (l₁ ++ l₂) s = runEpochs env l₂ (runEpochs env l₁ s) := by
  induction l₁ with
  | nil => intro s; rfl
  | cons e l ih =>
    intro s
    have he : env.interrupt e = false := h e (List.mem_cons_self e l)
    rw [List.cons_append, runEpochs_cons, runEpochs_cons, he]
    simp only [Bool.false_eq_true, if_false]
    exact ih (fun x hx => h x (List.mem_cons_of_mem _ hx)) _

lemma runEpochs_polled_of_no_interrupt (env : Env P) (l : List ℕ)
    (h : ∀ e ∈ l, env.interrupt e = false) :
    ∀ s : LoopState P, (runEpochs env l s).polled = s.polled ++ l := by
  induction l with
  | nil => intro s; simp [runEpochs]
  | cons e l ih =>
    intro s
    have he : env.interrupt e = false := h e (List.mem_cons_self e l)
    rw [runEpochs_cons, he]
    simp only [Bool.false_eq_true, if_false]
    rw [ih (fun x hx => h x (List.mem_cons_of_mem _ hx)), epochBody_polled]
    simp

lemma runEpochs_polled_prefix (env : Env P) (l : List ℕ) :
    ∀ s : LoopState P, ∃ t : List ℕ, (runEpochs env l s).polled = s.polled ++ t := by
  induction l with
  | nil => intro s; exact ⟨[], by simp [runEpochs]⟩
  | cons e l ih =>
    intro s
    rw [runEpochs_cons]
    split_ifs with he
    · exact ⟨[e], rfl⟩
    · obtain ⟨t, ht⟩ := ih (epochBody env e { s with polled := s.polled ++ [e] })
      refine ⟨e :: t, ?_⟩
      rw [ht, epochBody_polled]
      simp

lemma runEpochs_polled_head (env : Env P) (a : ℕ) (rest : List ℕ) (s : LoopState P)
    (hs : s.polled = []) :
    (runEpochs env (a :: rest) s).polled.head? = some a := by
  rw [runEpochs_cons]
  split_ifs with ha
  · simp [hs]
  · obtain ⟨t, ht⟩ := runEpochs_polled_prefix env rest
      (epochBody env a { s with polled := s.polled ++ [a] })
    rw [ht, epochBody_polled]
    simp [hs]

lemma runEpochs_rank_ne (env : Env P) (h : env.localRank ≠ 0) (l : List ℕ) :
    ∀ s : LoopState P,
      (runEpochs env l s).events = s.events ∧ (runEpochs env l s).persist = s.persist := by
  induction l with
  | nil => intro s; exact ⟨rfl, rfl⟩
  | cons e l ih =>
    intro s
    rw [runEpochs_cons]
    split_ifs with he
    · exact ⟨rfl, rfl⟩
    · have hbody := ih (epochBody env e { s with polled := s.polled ++ [e] })
      rw [hbody.1, hbody.2, epochBody_events, epochBody_persist,
        persistStep_rank_ne _ _ _ _ _ h]
      simp

lemma runEpochs_checkpointEpochs (env : Env P) (h0 : env.localRank = 0) (l : List ℕ)
    (h : ∀ e ∈ l, env.interrupt e = false) :
    ∀ s : LoopState P,
      checkpointEpochs (runEpochs env l s).events = checkpointEpochs s.events ++ l := by
  induction l with
  | nil => intro s; simp [runEpochs]
  | cons e l ih =>
    intro s
    have he : env.interrupt e = false := h e (List.mem_cons_self e l)
    rw [runEpochs_cons, he]
    simp only [Bool.false_eq_true, if_false]
    rw [ih (fun x hx => h x (List.mem_cons_of_mem _ hx)), epochBody_events,
      checkpointEpochs_append, h0, persistStep_checkpointEpochs]
    simp

lemma runEpochs_processed_mem (env : Env P) (l : List ℕ) :
    ∀ s : LoopState P, ∀ p ∈ (runEpochs env l s).batch.processed,
      p ∈ s.batch.processed ∨ p.1 ∈ l := by
  induction l with
  | nil => intro s p hp; exact Or.inl hp
  | cons e l ih =>
    intro s p hp
    rw [runEpochs_cons] at hp
    split_ifs at hp with he
    · exact Or.inl hp
    · rcases ih _ p hp with hmem | hrest
      · rw [epochBody_batch, trainEpoch_processed] at hmem
        rcases List.mem_append.1 hmem with hold | hnew
        · exact Or.inl hold
        · obtain ⟨b, _, hb⟩ := List.mem_map.1 hnew
          right
          rw [← hb]
          exact List.mem_cons_self e l
      · exact Or.inr (List.mem_cons_of_mem _ hrest)

/-! ### The loss-sentinel invariant (no best-by-loss write while all losses stay at or above 100) -/

lemma persistStep_no_loss_save (r e : ℕ) (m v : ℚ) (ps : PersistState)
    (hv : 100 ≤ v) (hps : ps.prevValLoss = 100) :
    (persistStep r e m v ps).1.prevValLoss = 100 ∧
      bestValLossEpochs (persistStep r e m v ps).2 = [] := by
  by_cases hr : r = 0
  · subst hr
    have hnot : ¬ v < ps.prevValLoss := by rw [hps]; exact not_lt.2 hv
    constructor
    · rw [persistStep_prevValLoss, if_neg hnot, hps]
    · rw [persistStep_events, if_neg hnot]
      split_ifs <;> rfl
  · rw [persistStep_rank_ne r e m v ps hr]
    exact ⟨hps, rfl⟩

lemma runEpochs_no_loss_save (env : Env P) (hloss : ∀ e, 100 ≤ (env.evalRes e).1)
    (l : List ℕ) :
    ∀ s : LoopState P, s.persist.prevValLoss = 100 →
      (runEpochs env l s).persist.prevValLoss = 100 ∧
        bestValLossEpochs (runEpochs env l s).events = bestValLossEpochs s.events := by
  induction l with
  | nil => intro s hs; exact ⟨hs, rfl⟩
  | cons e l ih =>
    intro s hs
    rw [runEpochs_cons]
    split_ifs with he
    · exact ⟨hs, rfl⟩
    · have hstep := persistStep_no_loss_save env.localRank e (env.evalRes e).2 (env.evalRes e).1
        s.persist (hloss e) hs
      have hbody := ih (epochBody env e { s with polled := s.polled ++ [e] })
        (by rw [epochBody_persist]; exact hstep.1)
      refine ⟨hbody.1, ?_⟩
      rw [hbody.2, epochBody_events, bestValLossEpochs_append, hstep.2]
      simp

/-! ### Monotonicity of the best-value trackers along a run's history -/

/-- The history of tracker states produced by applying the checkpoint phase to a
sequence of per-epoch `(epoch, miou, val_loss)` observations in epoch order,
starting from a given tracker state. -/
def persistTrack (obs : List (ℕ × ℚ × ℚ)) (ps : PersistState) : List PersistState :=
  obs.scanl (fun s o => (persistStep 0 o.1 o.2.1 o.2.2 s).1) ps

lemma head?_map_scanl {σ α β : Type} (f : σ → α → σ) (g : σ → β) (s : σ) (l : List α) :
    ((l.scanl f s).map g).head? = some (g s) := by
  cases l <;> simp [List.scanl_nil, List.scanl_cons]

lemma chain'_map_scanl {σ α β : Type} (R : β → β → Prop) (f : σ → α → σ) (g : σ → β)
    (hf : ∀ s a, R (g s) (g (f s a))) (l : List α) :
    ∀ s : σ, ((l.scanl f s).map g).Chain' R := by
  induction l with
  | nil => intro s; simp [List.scanl_nil]
  | cons a l ih =>
    intro s
    rw [List.scanl_cons]
    simp only [List.singleton_append, List.map_cons]
    rw [List.chain'_cons']
    constructor
    · intro y hy
      rw [head?_map_scanl] at hy
      cases hy
      exact hf s a
    · exact ih (f s a)

/-! ### The iteration counter and per-batch schedule stepping -/

lemma run_iters_invariant (env : Env P) :
    ∀ (l : List ℕ) (s : LoopState P),
      s.batch.itersLog = s.batch.processed.map (fun p => env.n * p.1 + p.2) →
      s.batch.schedSteps = s.batch.processed.length →
      s.batch.itersLog.Chain' (· < ·) →
      (∀ x ∈ s.batch.itersLog, ∀ e ∈ l, x < env.n * e) →
      l.Pairwise (· < ·) →
      (runEpochs env l s).batch.itersLog
          = (runEpochs env l s).batch.processed.map (fun p => env.n * p.1 + p.2) ∧
        (runEpochs env l s).batch.schedSteps = (runEpochs env l s).batch.processed.length ∧
        (runEpochs env l s).batch.itersLog.Chain' (· < ·) := by
  intro l
  induction l with
  | nil => intro s h1 h2 h3 _ _; exact ⟨h1, h2, h3⟩
  | cons e l ih =>
    intro s h1 h2 h3 h4 h5
    rw [runEpochs_cons]
    split_ifs with he
    · exact ⟨h1, h2, h3⟩
    · set s' : LoopState P := { s with polled := s.polled ++ [e] } with hs'
      have hb : (epochBody env e s').batch = trainEpoch env e s.batch := rfl
      have hlog : (epochBody env e s').batch.itersLog
          = s.batch.itersLog ++ (List.range env.n).map (fun b => env.n * e + b) := by
        rw [hb, trainEpoch_itersLog]
      have hproc : (epochBody env e s').batch.processed
          = s.batch.processed ++ (List.range env.n).map (fun b => (e, b)) := by
        rw [hb, trainEpoch_processed]
      have hpair : ∀ e' ∈ l, e < e' := fun e' he' => (List.pairwise_cons.1 h5).1 e' he'
      refine ih (epochBody env e s') ?_ ?_ ?_ ?_ (List.pairwise_cons.1 h5).2
      · rw [hlog, hproc, List.map_append, h1, List.map_map]
        congr 1
      · rw [hb, trainEpoch_schedSteps, trainEpoch_processed, h2]
        simp
      · rw [hlog]
        refine List.Chain'.append h3 ?_ ?_
        · have hr : ((List.range env.n).map (fun b => env.n * e + b)).Chain' (· < ·) := by
            rw [List.chain'_map]
            exact ((List.pairwise_lt_range env.n).imp
              (fun hab => Nat.add_lt_add_left hab _)).chain'
          exact hr
        · intro x hx y hy
          have hxmem : x ∈ s.batch.itersLog := List.mem_of_mem_getLast? hx
          have hxlt : x < env.n * e := h4 x hxmem e (List.mem_cons_self e l)
          have hyge : env.n * e ≤ y := by
            rcases List.mem_map.1 (List.mem_of_mem_head? hy) with ⟨b, _, hb'⟩
            omega
          omega
      · intro x hx e' he'
        have hee' : e < e' := hpair e' he'
        rw [hlog] at hx
        rcases List.mem_append.1 hx with hold | hnew
        · have hxlt : x < env.n * e := h4 x hold e (List.mem_cons_self e l)
          have : env.n * e ≤ env.n * e' := Nat.mul_le_mul_left env.n (le_of_lt hee')
          omega
        · obtain ⟨b, hbmem, hb'⟩ := List.mem_map.1 hnew
          have hb2 : env.n * e + b = x := hb'
          have hblt : b < env.n := List.mem_range.1 hbmem
          have hmul : env.n * (e + 1) ≤ env.n * e' := Nat.mul_le_mul_left env.n hee'
          have hsucc : env.n * (e + 1) = env.n * e + env.n := Nat.mul_succ env.n e
          omega

/-! ### Concrete environments used to instantiate the theorems -/

/-- A two-batch-per-epoch run over integer parameters in which reduced
precision is enabled and the scaled backward pass of batch 0 (of every epoch)
overflows while batch 1 does not. -/
def envOvf : Env ℤ :=
  { n := 2
    upd := fun _ _ p => p + 1
    ovf := fun _ b => decide (b = 0)
    interrupt := fun _ => false
    evalRes := fun _ => (1, 0)
    localRank := 0 }

/-- Batch-level state at the start of an epoch of an `envOvf` run. -/
def sOvf : BatchState ℤ :=
  { params := 0
    scaler := { scale := 65536, enabled := true }
    schedSteps := 0
    optSteps := 0
    itersLog := []
    processed := [] }

/-- A rank-0, one-batch-per-epoch run whose evaluation results follow the
spec's worked example: validation losses `[2.0, 1.0, 1.5, 1.0, 0.8]` and
metric values `[0.10, 0.45, 0.30, 0.45, 0.50]` for epochs 0 to 4
(`evalRes e = (val_loss, miou)`). -/
def envBest : Env Unit :=
  { n := 1
    upd := fun _ _ p => p
    ovf := fun _ _ => false
    interrupt := fun _ => false
    evalRes := fun e =>
      [((2 : ℚ), mkRat 1 10), (1, mkRat 9 20), (mkRat 3 2, mkRat 3 10),
        (1, mkRat 9 20), (mkRat 4 5, mkRat 1 2)].getD e (0, 0)
    localRank := 0 }

/-- The same run observed from a rank-1 process. -/
def envRank1 : Env Unit :=
  { envBest with localRank := 1 }

/-- A rank-0 run all of whose epochs evaluate to validation loss exactly 100. -/
def envLoss100 : Env Unit :=
  { envBest with evalRes := fun _ => (100, 0) }

/-- A rank-0 run whose interrupt predicate first returns true at epoch 2. -/
def envInt : Env Unit :=
  { envBest with interrupt := fun e => decide (e = 2) }

/-- A concrete checkpoint record written after epoch 3. -/
def ckpt3 : Checkpoint Unit Unit Unit Unit :=
  { model_state_dict := ()
    optimizer_state_dict := ()
    scheduler_state_dict := ()
    scaler_state_dict := ()
    epoch := 3
    miou := mkRat 9 20
    val_loss := 1 }

/-- Trivial freshly built components. -/
def freshUnit : Fresh Unit Unit Unit Unit :=
  { model := (), optimizer := (), scheduler := (), scaler := () }

/-! ### C1 -/

/-- **C1** (counterexample): on a batch whose scaled backward pass overflows
(`envOvf`, epoch 0, batch 0), the optimizer update is indeed skipped and the
model parameters are unchanged, but `scheduler.step()` still runs, so the
learning-rate schedule IS advanced for that step — contradicting the claim
that the schedule is not advanced when overflow is detected. -/
theorem c1_overflow_cex :
    (batchStep envOvf 0 0 sOvf).params = sOvf.params ∧
    (batchStep envOvf 0 0 sOvf).optSteps = sOvf.optSteps ∧
    (batchStep envOvf 0 0 sOvf).schedSteps ≠ sOvf.schedSteps := by
  refine ⟨rfl, rfl, ?_⟩
  decide

/-- **C1** (amended): under reduced-precision mode, on every batch whose
scaled backward pass overflows the optimizer update is skipped, the model
parameters are unchanged by that batch, and the scale factor is halved — but
the learning-rate schedule IS advanced for that step (`scheduler.step()` at
train.py line 100 runs unconditionally), and training proceeds normally on a
following batch without overflow, whose update is applied. -/
theorem c1_overflow_skips_update_but_schedule_advances
    (env : Env P) (e b e' b' : ℕ) (s : BatchState P)
    (hamp : s.scaler.enabled = true) (hovf : env.ovf e b = true)
    (hovf' : env.ovf e' b' = false) :
    (batchStep env e b s).params = s.params ∧
    (batchStep env e b s).optSteps = s.optSteps ∧
    (batchStep env e b s).scaler.scale = s.scaler.scale / 2 ∧
    (batchStep env e b s).schedSteps = s.schedSteps + 1 ∧
    (batchStep env e' b' (batchStep env e b s)).params = env.upd e' b' s.params ∧
    (batchStep env e' b' (batchStep env e b s)).optSteps = s.optSteps + 1 := by
  simp [batchStep, GradScaler.updateScale, hamp, hovf, hovf']

/-- Witness for the amended C1 theorem at `envOvf`: the overflow batch
`(0,0)` leaves the parameters at `0` and the applied-update count at `0`,
halves the scale, advances the schedule, and batch `(0,1)` then applies its
update normally. -/
theorem c1_overflow_skips_update_but_schedule_advances_witness :
    (batchStep envOvf 0 0 sOvf).params = sOvf.params ∧
    (batchStep envOvf 0 0 sOvf).optSteps = sOvf.optSteps ∧
    (batchStep envOvf 0 0 sOvf).scaler.scale = sOvf.scaler.scale / 2 ∧
    (batchStep envOvf 0 0 sOvf).schedSteps = sOvf.schedSteps + 1 ∧
    (batchStep envOvf 0 1 (batchStep envOvf 0 0 sOvf)).params = envOvf.upd 0 1 sOvf.params ∧
    (batchStep envOvf 0 1 (batchStep envOvf 0 0 sOvf)).optSteps = sOvf.optSteps + 1 :=
  c1_overflow_skips_update_but_schedule_advances envOvf 0 0 0 1 sOvf rfl rfl rfl

/-! ### C2 -/

/-- **C2**: the teardown call `torch.distributed.destroy_process_group()` at
train.py line 144 runs unconditionally after the loop; in distributed mode it
succeeds, but in non-distributed mode (`cfg['ddp'] = false`) no process group
was ever initialized and the call raises an error instead of being a no-op —
the code contradicts the claimed (and spec-intended) idempotent no-op
behaviour. -/
theorem c2_teardown_errors_when_never_initialized :
    scriptTeardown false
        = Except.error "Default process group has not been initialized" ∧
    scriptTeardown true = Except.ok () :=
  ⟨rfl, rfl⟩

/-! ### C6 -/

/-- **C6**: resuming with fine-tune mode enabled restores only the model
parameters from the checkpoint (with batch-normalization statistics frozen by
the caller-supplied `freeze_bn`); the optimizer, scheduler and scaler keep
their freshly built state, and the resumed epoch counter equals
`checkpoint.epoch + 1`. -/
theorem c6_fine_tune_resume (ck : Checkpoint P O S C) (fz : P → P) (fr : Fresh P O S C) :
    (resumeOrFresh (some ck) true fz fr).model = fz ck.model_state_dict ∧
    (resumeOrFresh (some ck) true fz fr).optimizer = fr.optimizer ∧
    (resumeOrFresh (some ck) true fz fr).scheduler = fr.scheduler ∧
    (resumeOrFresh (some ck) true fz fr).scaler = fr.scaler ∧
    (resumeOrFresh (some ck) true fz fr).start_epoch = ck.epoch + 1 :=
  ⟨rfl, rfl, rfl, rfl, rfl⟩

/-! ### C3 -/

/-- **C3**: at the checkpoint phase the best-by-metric artifact is overwritten
iff the epoch's metric strictly exceeds the tracked best, and independently the
best-by-loss artifact is overwritten iff the epoch's validation loss is
strictly below the tracked best (ties never overwrite), each tracker being
updated immediately after its comparison; and on a fresh run over the spec's
worked sequences (metrics `[0.10, 0.45, 0.30, 0.45, 0.50]`, losses
`[2.0, 1.0, 1.5, 1.0, 0.8]`) both artifacts are overwritten exactly at epochs
0, 1 and 4. -/
theorem c3_best_artifact_policy :
    (∀ (e : ℕ) (m v : ℚ) (ps : PersistState),
      (SaveEvent.bestMiou e ∈ (persistStep 0 e m v ps).2 ↔ m > ps.prevMiou) ∧
      (SaveEvent.bestValLoss e ∈ (persistStep 0 e m v ps).2 ↔ v < ps.prevValLoss) ∧
      (persistStep 0 e m v ps).1.prevMiou = (if m > ps.prevMiou then m else ps.prevMiou) ∧
      (persistStep 0 e m v ps).1.prevValLoss
        = (if v < ps.prevValLoss then v else ps.prevValLoss)) ∧
    bestMiouEpochs (runEpochs envBest (epochRange 0 5) (initLoopState () false 0 100)).events
      = [0, 1, 4] ∧
    bestValLossEpochs (runEpochs envBest (epochRange 0 5) (initLoopState () false 0 100)).events
      = [0, 1, 4] := by
  refine ⟨fun e m v ps =>
    ⟨?_, ?_, persistStep_prevMiou e m v ps, persistStep_prevValLoss e m v ps⟩, ?_, ?_⟩
  · rw [persistStep_events]
    by_cases h1 : m > ps.prevMiou <;> by_cases h2 : v < ps.prevValLoss <;> simp [h1, h2]
  · rw [persistStep_events]
    by_cases h1 : m > ps.prevMiou <;> by_cases h2 : v < ps.prevValLoss <;> simp [h1, h2]
  · decide
  · decide

/-! ### C4 -/

/-- **C4**: along any sequence of per-epoch `(epoch, metric, loss)`
observations applied in epoch order, the tracked best metric is non-decreasing
and the tracked best loss is non-increasing across the run's history, and each
tracker changes only when a strictly better value is observed in the current
epoch. -/
theorem c4_trackers_monotone :
    ∀ (obs : List (ℕ × ℚ × ℚ)) (ps : PersistState),
      ((persistTrack obs ps).map PersistState.prevMiou).Chain' (· ≤ ·) ∧
      ((persistTrack obs ps).map PersistState.prevValLoss).Chain' (· ≥ ·) ∧
      ∀ (e : ℕ) (m v : ℚ) (q : PersistState),
        ((persistStep 0 e m v q).1.prevMiou ≠ q.prevMiou → m > q.prevMiou) ∧
        ((persistStep 0 e m v q).1.prevValLoss ≠ q.prevValLoss → v < q.prevValLoss) := by
  intro obs ps
  refine ⟨?_, ?_, ?_⟩
  · exact chain'_map_scanl (fun a b => a ≤ b)
      (fun (s : PersistState) (o : ℕ × ℚ × ℚ) => (persistStep 0 o.1 o.2.1 o.2.2 s).1)
      PersistState.prevMiou (fun s o => persistStep_prevMiou_le 0 o.1 o.2.1 o.2.2 s) obs ps
  · exact chain'_map_scanl (fun a b => a ≥ b)
      (fun (s : PersistState) (o : ℕ × ℚ × ℚ) => (persistStep 0 o.1 o.2.1 o.2.2 s).1)
      PersistState.prevValLoss (fun s o => persistStep_prevValLoss_ge 0 o.1 o.2.1 o.2.2 s) obs ps
  · intro e m v q
    constructor
    · intro hne
      by_contra hle
      rw [persistStep_prevMiou, if_neg hle] at hne
      exact hne rfl
    · intro hne
      by_contra hlt
      rw [persistStep_prevValLoss, if_neg hlt] at hne
      exact hne rfl

/-- Witness for C4 on a concrete three-epoch observation sequence. -/
theorem c4_trackers_monotone_witness :
    ((persistTrack [(0, mkRat 1 10, 2), (1, mkRat 9 20, 1), (2, mkRat 3 10, mkRat 3 2)]
        { prevMiou := 0, prevValLoss := 100 }).map PersistState.prevMiou).Chain' (· ≤ ·) ∧
    ((persistTrack [(0, mkRat 1 10, 2), (1, mkRat 9 20, 1), (2, mkRat 3 10, mkRat 3 2)]
        { prevMiou := 0, prevValLoss := 100 }).map PersistState.prevValLoss).Chain' (· ≥ ·) ∧
    ∀ (e : ℕ) (m v : ℚ) (q : PersistState),
      ((persistStep 0 e m v q).1.prevMiou ≠ q.prevMiou → m > q.prevMiou) ∧
      ((persistStep 0 e m v q).1.prevValLoss ≠ q.prevValLoss → v < q.prevValLoss) :=
  c4_trackers_monotone [(0, mkRat 1 10, 2), (1, mkRat 9 20, 1), (2, mkRat 3 10, mkRat 3 2)]
    { prevMiou := 0, prevValLoss := 100 }

/-! ### C5 -/

/-- **C5**: the checkpoint record persisted after epoch `e` completes stores
`epoch = e` (it is the first write of the checkpoint phase), and resuming from
a record with `epoch = e` yields `start_epoch = e + 1`, so the next training
loop iteration — the first epoch polled by the loop over
`range(start_epoch, total)` — is `e + 1`. -/
theorem c5_checkpoint_epoch_resume
    (e : ℕ) (m v : ℚ) (ps : PersistState)
    (ck : Checkpoint P O S C) (ft : Bool) (fz : P → P) (fr : Fresh P O S C)
    (env : Env P) (total : ℕ) (params : P) (amp : Bool) (pm pv : ℚ)
    (hck : ck.epoch = e) (htot : e + 1 < total) :
    (persistStep 0 e m v ps).2.head? = some (SaveEvent.checkpoint e m v) ∧
    (resumeOrFresh (some ck) ft fz fr).start_epoch = e + 1 ∧
    (runEpochs env (epochRange (e + 1) total) (initLoopState params amp pm pv)).polled.head?
      = some (e + 1) := by
  refine ⟨?_, ?_, ?_⟩
  · rw [persistStep_events, List.head?_cons]
  · cases ft <;> simp [resumeOrFresh, hck]
  · obtain ⟨k, hk⟩ : ∃ k, total - (e + 1) = k + 1 := ⟨total - (e + 1) - 1, by omega⟩
    have hrange : epochRange (e + 1) total = (e + 1) :: List.range' (e + 1 + 1) k := by
      unfold epochRange
      rw [hk, List.range'_succ]
    rw [hrange]
    exact runEpochs_polled_head env (e + 1) _ _ rfl

/-- Witness for C5: a record written after epoch 3, resumed into a 5-epoch run. -/
theorem c5_checkpoint_epoch_resume_witness :
    (persistStep 0 3 (mkRat 9 20) 1 { prevMiou := 0, prevValLoss := 100 }).2.head?
        = some (SaveEvent.checkpoint 3 (mkRat 9 20) 1) ∧
    (resumeOrFresh (some ckpt3) true id freshUnit).start_epoch = 3 + 1 ∧
    (runEpochs envBest (epochRange (3 + 1) 5) (initLoopState () false 0 100)).polled.head?
      = some (3 + 1) :=
  c5_checkpoint_epoch_resume 3 (mkRat 9 20) 1 { prevMiou := 0, prevValLoss := 100 } ckpt3 true id
    freshUnit envBest 5 () false 0 100 rfl (by omega)

/-! ### C7 -/

/-- **C7**: the interrupt predicate is polled exactly once per epoch, at the
epoch boundary before any of that epoch's training work: on a fresh run in
which the predicate first returns true at epoch `k` (with `0 < k < total`),
the polled epochs are exactly `0, ..., k` in order, no training batch of any
epoch `≥ k` is processed, the loop exits through the interrupt branch, and
the last persisted checkpoint is the one written after epoch `k - 1`. -/
theorem c7_interrupt_at_epoch_boundary
    (env : Env P) (total k : ℕ) (params : P) (amp : Bool) (pm pv : ℚ)
    (hfalse : ∀ e, e < k → env.interrupt e = false)
    (htrue : env.interrupt k = true)
    (hk : 0 < k) (hktot : k < total) (h0 : env.localRank = 0) :
    (runEpochs env (epochRange 0 total) (initLoopState params amp pm pv)).polled
        = List.range (k + 1) ∧
    (∀ p ∈ (runEpochs env (epochRange 0 total) (initLoopState params amp pm pv)).batch.processed,
      p.1 < k) ∧
    (runEpochs env (epochRange 0 total) (initLoopState params amp pm pv)).interrupted = true ∧
    (checkpointEpochs
        (runEpochs env (epochRange 0 total) (initLoopState params amp pm pv)).events).getLast?
      = some (k - 1) := by
  have hni : ∀ e ∈ List.range k, env.interrupt e = false :=
    fun e he => hfalse e (List.mem_range.1 he)
  have hsplit : epochRange 0 total
      = List.range k ++ (k :: List.range' (k + 1) (total - k - 1)) := by
    unfold epochRange
    rw [Nat.sub_zero]
    have h1 : k :: List.range' (k + 1) (total - k - 1) = List.range' k (total - k) := by
      obtain ⟨m, hm⟩ : ∃ m, total - k = m + 1 := ⟨total - k - 1, by omega⟩
      have hmm : m + 1 - 1 = m := by omega
      rw [hm, hmm, List.range'_succ]
    rw [h1, List.range_eq_range']
    have h3 := List.range'_append_1 0 k (total - k)
    rw [Nat.zero_add] at h3
    rw [h3]
    congr 1
    omega
  have hrun : runEpochs env (epochRange 0 total) (initLoopState params amp pm pv)
      = runEpochs env (k :: List.range' (k + 1) (total - k - 1))
          (runEpochs env (List.range k) (initLoopState params amp pm pv)) := by
    rw [hsplit, runEpochs_append_of_no_interrupt env _ _ hni]
  have hstep : runEpochs env (k :: List.range' (k + 1) (total - k - 1))
        (runEpochs env (List.range k) (initLoopState params amp pm pv))
      = { runEpochs env (List.range k) (initLoopState params amp pm pv) with
          polled := (runEpochs env (List.range k) (initLoopState params amp pm pv)).polled ++ [k]
          interrupted := true } := by
    rw [runEpochs_cons, if_pos htrue]
  rw [hrun, hstep]
  have hpol : (runEpochs env (List.range k) (initLoopState params amp pm pv)).polled
      = List.range k := by
    rw [runEpochs_polled_of_no_interrupt env _ hni]
    rfl
  refine ⟨?_, ?_, rfl, ?_⟩
  · show (runEpochs env (List.range k) (initLoopState params amp pm pv)).polled ++ [k]
        = List.range (k + 1)
    rw [hpol, ← List.range_succ]
  · intro p hp
    have hmem := runEpochs_processed_mem env (List.range k) (initLoopState params amp pm pv) p hp
    rcases hmem with h | h
    · simp [initLoopState] at h
    · exact List.mem_range.1 h
  · show (checkpointEpochs
        (runEpochs env (List.range k) (initLoopState params amp pm pv)).events).getLast?
      = some (k - 1)
    have hce : checkpointEpochs
        (runEpochs env (List.range k) (initLoopState params amp pm pv)).events
        = List.range k := by
      rw [runEpochs_checkpointEpochs env h0 _ hni]
      rfl
    rw [hce]
    obtain ⟨j, hj⟩ : ∃ j, k = j + 1 := ⟨k - 1, by omega⟩
    rw [hj, List.range_succ, List.getLast?_concat]
    simp

/-- Witness for C7: `envInt` interrupts at epoch 2 of a 4-epoch run. -/
theorem c7_interrupt_at_epoch_boundary_witness :
    (runEpochs envInt (epochRange 0 4) (initLoopState () false 0 100)).polled
        = List.range (2 + 1) ∧
    (∀ p ∈ (runEpochs envInt (epochRange 0 4) (initLoopState () false 0 100)).batch.processed,
      p.1 < 2) ∧
    (runEpochs envInt (epochRange 0 4) (initLoopState () false 0 100)).interrupted = true ∧
    (checkpointEpochs
        (runEpochs envInt (epochRange 0 4) (initLoopState () false 0 100)).events).getLast?
      = some (2 - 1) :=
  c7_interrupt_at_epoch_boundary envInt 4 2 () false 0 100 (by decide) (by decide)
    (by decide) (by decide) rfl

/-! ### C8 -/

/-- **C8**: in every run, a process whose rank is not 0 never writes persisted
state (its whole checkpoint phase is a no-op: no write events and unchanged
best-value trackers), while the rank-0 process writes the full checkpoint
record unconditionally once per completed epoch, whatever the evaluation
results are. -/
theorem c8_rank0_sole_writer (env : Env P) (l : List ℕ) (s : LoopState P) :
    (env.localRank ≠ 0 →
      (runEpochs env l s).events = s.events ∧ (runEpochs env l s).persist = s.persist) ∧
    (env.localRank = 0 → (∀ e ∈ l, env.interrupt e = false) →
      checkpointEpochs (runEpochs env l s).events = checkpointEpochs s.events ++ l) :=
  ⟨fun h => runEpochs_rank_ne env h l s,
   fun h0 hni => runEpochs_checkpointEpochs env h0 l hni s⟩

/-- Witness for C8: the rank-1 run writes nothing; the rank-0 run writes one
checkpoint record per epoch. -/
theorem c8_rank0_sole_writer_witness :
    ((runEpochs envRank1 (epochRange 0 3) (initLoopState () false 0 100)).events
        = (initLoopState () false 0 100 : LoopState Unit).events ∧
      (runEpochs envRank1 (epochRange 0 3) (initLoopState () false 0 100)).persist
        = (initLoopState () false 0 100 : LoopState Unit).persist) ∧
    checkpointEpochs (runEpochs envBest (epochRange 0 3) (initLoopState () false 0 100)).events
      = checkpointEpochs (initLoopState () false 0 100 : LoopState Unit).events
          ++ epochRange 0 3 :=
  ⟨(c8_rank0_sole_writer envRank1 (epochRange 0 3) (initLoopState () false 0 100)).1
      (by decide),
   (c8_rank0_sole_writer envBest (epochRange 0 3) (initLoopState () false 0 100)).2
      rfl (by decide)⟩

/-! ### C9 -/

/-- **C9**: over any run of the epoch loop, the learning-rate schedule is
advanced exactly once per processed training batch (`schedSteps` equals the
number of processed batches), and the global iteration counter logged with
each batch equals `batches_per_epoch * epoch + batch_index` and is strictly
increasing over the run. -/
theorem c9_schedule_once_per_batch (env : Env P) (start total : ℕ)
    (params : P) (amp : Bool) (pm pv : ℚ) :
    (runEpochs env (epochRange start total) (initLoopState params amp pm pv)).batch.itersLog
        = ((runEpochs env (epochRange start total)
            (initLoopState params amp pm pv)).batch.processed).map
              (fun p => env.n * p.1 + p.2) ∧
    (runEpochs env (epochRange start total) (initLoopState params amp pm pv)).batch.schedSteps
        = (runEpochs env (epochRange start total)
            (initLoopState params amp pm pv)).batch.processed.length ∧
    ((runEpochs env (epochRange start total)
        (initLoopState params amp pm pv)).batch.itersLog).Chain' (· < ·) :=
  run_iters_invariant env (epochRange start total) (initLoopState params amp pm pv)
    rfl rfl List.chain'_nil (fun x hx => absurd hx (List.not_mem_nil x))
    (List.pairwise_lt_range' start (total - start))

/-! ### C10 -/

/-- **C10**: on a fresh (non-resumed) run the best-loss tracker starts at
exactly 100 and the best-metric tracker at 0; consequently, if every epoch's
validation loss is at least 100, the best-by-loss artifact is never written
during the whole run. -/
theorem c10_loss_sentinel (env : Env P) (l : List ℕ) (params : P) (amp : Bool)
    (ft : Bool) (fz : P → P) (fr : Fresh P O S C)
    (hloss : ∀ e, 100 ≤ (env.evalRes e).1) :
    (resumeOrFresh none ft fz fr).prev_val_loss = 100 ∧
    (resumeOrFresh none ft fz fr).prev_miou = 0 ∧
    bestValLossEpochs (runEpochs env l (initLoopState params amp 0 100)).events = [] := by
  refine ⟨rfl, rfl, ?_⟩
  have h := runEpochs_no_loss_save env hloss l (initLoopState params amp 0 100) rfl
  rw [h.2]
  rfl

/-- Witness for C10: a 3-epoch run all of whose validation losses are 100
never writes the best-by-loss artifact. -/
theorem c10_loss_sentinel_witness :
    (resumeOrFresh (none : Option (Checkpoint Unit Unit Unit Unit)) false id
        freshUnit).prev_val_loss = 100 ∧
    (resumeOrFresh (none : Option (Checkpoint Unit Unit Unit Unit)) false id
        freshUnit).prev_miou = 0 ∧
    bestValLossEpochs
        (runEpochs envLoss100 (epochRange 0 3) (initLoopState () false 0 100)).events = [] :=
  c10_loss_sentinel envLoss100 (epochRange 0 3) () false false id freshUnit
    (fun _ => le_refl (100 : ℚ))

end UnetTrain
